import Mathlib

/-!
Verification of the IBusBM RC-protocol decoder (src/src/IBusBM.cpp).

The single source file implements a byte-at-a-time finite state machine
(`IBusBM::loop`) that resegments a UART byte stream into frames, validates a
16-bit checksum, decodes "set channels" command frames into a channel array,
and answers sensor poll frames (discover / type / value) by writing reply
bytes to the output stream.  Host-facing accessors are `readChannel`,
`addSensor` and `setSensorMeasurement`.

The embedding below translates that file.  Machine integers are modelled as
`Nat` with explicit `% 2^w` reductions at the points where the C++ types
truncate (`uint8_t` reads, `uint16_t` checksum arithmetic, `uint32_t` millis
subtraction).  The byte stream is a list of (timestamp, byte) pairs; the
output stream is the list of bytes written so far.

Constants are from the library header IBusBM.h (not part of src/); their
values are as documented in the specification: frame length bound 0x20,
overhead 3, 10 channels, time gap threshold, command codes 0x40 / 0x80 /
0x90 / 0xA0, and a sensor capacity of 10.
-/

set_option maxRecDepth 40000

namespace IBusBM

def PROTOCOL_LENGTH : Nat := 0x20
def PROTOCOL_OVERHEAD : Nat := 3
def PROTOCOL_TIMEGAP : Nat := 3
def PROTOCOL_CHANNELS : Nat := 10
def PROTOCOL_COMMAND40 : Nat := 0x40
def PROTOCOL_COMMAND_DISCOVER : Nat := 0x80
def PROTOCOL_COMMAND_TYPE : Nat := 0x90
def PROTOCOL_COMMAND_VALUE : Nat := 0xA0
def SENSORMAX : Nat := 10

/-- The five states of the frame reader (the `state` member). -/
inductive FsmState where
  | GET_LENGTH
  | GET_DATA
  | GET_CHKSUML
  | GET_CHKSUMH
  | DISCARD
deriving Repr, DecidableEq

/-- The members of class `IBusBM` plus the bytes written to the output
stream so far.  Arrays are lists of fixed length: `buffer` has
`PROTOCOL_LENGTH = 32` entries, `channel` has `PROTOCOL_CHANNELS = 10`,
`sensorType` and `sensorValue` have `SENSORMAX + 1 = 11` (addresses are
1-based; index 0 exists but no sensor ever gets address 0). -/
structure IBusState where
  state : FsmState
  last : Nat
  ptr : Nat
  len : Nat
  chksum : Nat
  lchksum : Nat
  buffer : List Nat
  channel : List Nat
  sensorType : List Nat
  sensorValue : List Nat
  sensorCount : Nat
  enablesensor : Bool
  cnt_err : Nat
  cnt_rec : Nat
  cnt_poll : Nat
  cnt_sensor : Nat
  output : List Nat
deriving Repr, DecidableEq

/-- The `uint32_t` subtraction `a - b`, as in `now - last`. -/
def sub32 (a b : Nat) : Nat :=
  (a % 4294967296 + 4294967296 - b % 4294967296) % 4294967296

/-- Recomputation of the whole channel array performed on a valid 0x40 frame:
`for (i = 1; i < PROTOCOL_CHANNELS*2+1; i += 2) channel[i/2] = buffer[i] | (buffer[i+1] << 8)`. -/
def decodeChannels (buffer : List Nat) : List Nat :=
  (List.range PROTOCOL_CHANNELS).map
    (fun j => (buffer.getD (2*j+1) 0 ||| (buffer.getD (2*j+2) 0 <<< 8)) % 65536)

/-- The sensor-command dispatch in state GET_CHKSUMH (the inner `switch` on
`buffer[0] & 0x0f0` plus the conditional checksum write guarded by `adr>0`). -/
def sensorDispatch (s : IBusState) (adr0 : Nat) : IBusState :=
  let b0 := s.buffer.getD 0 0 &&& 0xf0
  let p :=
    if b0 = PROTOCOL_COMMAND_DISCOVER then
      ({ s with cnt_poll := s.cnt_poll + 1,
                output := s.output ++ [0x04, (PROTOCOL_COMMAND_DISCOVER + adr0) % 256],
                chksum := 0xFFFF - (0x04 + PROTOCOL_COMMAND_DISCOVER + adr0) }, adr0)
    else if b0 = PROTOCOL_COMMAND_TYPE then
      let ty := s.sensorType.getD adr0 0 % 256
      ({ s with output := s.output ++ [0x06, (PROTOCOL_COMMAND_TYPE + adr0) % 256, ty, 0x02],
                chksum := 0xFFFF - (0x06 + PROTOCOL_COMMAND_TYPE + adr0 + ty + 2) }, adr0)
    else if b0 = PROTOCOL_COMMAND_VALUE then
      let sv := s.sensorValue.getD adr0 0 % 65536
      ({ s with cnt_sensor := s.cnt_sensor + 1,
                output := s.output ++ [0x06, (PROTOCOL_COMMAND_VALUE + adr0) % 256,
                                       sv &&& 0xff, sv >>> 8],
                chksum := 0xFFFF - (0x06 + PROTOCOL_COMMAND_VALUE + adr0 + (sv >>> 8) + (sv &&& 0xff)) }, adr0)
    else (s, 0)
  let s1 := p.1
  let adr := p.2
  if adr > 0 then
    { s1 with output := s1.output ++ [(s1.chksum % 65536) &&& 0xff, (s1.chksum % 65536) >>> 8] }
  else s1

/-- One iteration of the `while` body of `IBusBM::loop`: the timing-gap
resynchronisation, `last` update, `stream->read()` and the `switch (state)`. -/
def step (s0 : IBusState) (now v0 : Nat) : IBusState :=
  let s1 := if PROTOCOL_TIMEGAP ≤ sub32 now s0.last
            then { s0 with state := FsmState.GET_LENGTH } else s0
  let s := { s1 with last := now % 4294967296 }
  let v := v0 % 256
  match s.state with
  | FsmState.GET_LENGTH =>
      if v ≤ PROTOCOL_LENGTH ∧ PROTOCOL_OVERHEAD < v then
        { s with ptr := 0, len := v - PROTOCOL_OVERHEAD, chksum := 0xFFFF - v,
                 state := FsmState.GET_DATA }
      else
        { s with cnt_err := s.cnt_err + 1, state := FsmState.DISCARD }
  | FsmState.GET_DATA =>
      let s2 := { s with buffer := s.buffer.set s.ptr v, ptr := s.ptr + 1,
                         chksum := (s.chksum % 65536 + 65536 - v) % 65536 }
      if s2.ptr = s2.len then { s2 with state := FsmState.GET_CHKSUML } else s2
  | FsmState.GET_CHKSUML =>
      { s with lchksum := v, state := FsmState.GET_CHKSUMH }
  | FsmState.GET_CHKSUMH =>
      let s2 :=
        if s.chksum % 65536 = (v <<< 8) + s.lchksum % 256 then
          let adr := s.buffer.getD 0 0 &&& 0x0f
          if s.buffer.getD 0 0 = PROTOCOL_COMMAND40 then
            { s with channel := decodeChannels s.buffer, cnt_rec := s.cnt_rec + 1 }
          else if adr ≤ s.sensorCount ∧ 0 < adr ∧ s.len = 1 ∧ s.enablesensor then
            sensorDispatch s adr
          else s
        else s
      { s2 with state := FsmState.DISCARD }
  | FsmState.DISCARD => s

/-- Model of `IBusBM::loop`: drain a sequence of (timestamp, byte) pairs through `step`. -/
def processBytes (s : IBusState) (l : List (Nat × Nat)) : IBusState :=
  l.foldl (fun s p => step s p.1 p.2) s

/-- Model of `IBusBM::readChannel`. -/
def readChannel (s : IBusState) (channelNr : Nat) : Nat :=
  if channelNr % 256 < PROTOCOL_CHANNELS then s.channel.getD (channelNr % 256) 0 else 0

/-- Model of `IBusBM::addSensor`: returns the updated object and the returned sensor
number. -/
def addSensor (s : IBusState) (type : Nat) : IBusState × Nat :=
  if s.sensorCount < SENSORMAX then
    let c := s.sensorCount + 1
    ({ s with sensorCount := c, sensorType := s.sensorType.set c (type % 256) }, c)
  else (s, s.sensorCount)

/-- Model of `IBusBM::setSensorMeasurement` (the spec calls it `setSensorValue`). -/
def setSensorMeasurement (s : IBusState) (adr value : Nat) : IBusState :=
  if adr % 256 ≤ s.sensorCount then
    { s with sensorValue := s.sensorValue.set (adr % 256) (value % 65536) }
  else s

/-- A freshly constructed object after `begin(stream, enablesensor)` at time 0:
`state = DISCARD`, counters and parse registers cleared.  The C++ member
arrays are uninitialised storage; they are taken as all-zero here. -/
def initState (enablesensor : Bool) : IBusState :=
  { state := FsmState.DISCARD, last := 0, ptr := 0, len := 0, chksum := 0,
    lchksum := 0, buffer := List.replicate 32 0,
    channel := List.replicate 10 0,
    sensorType := List.replicate 11 0, sensorValue := List.replicate 11 0,
    sensorCount := 0, enablesensor := enablesensor,
    cnt_err := 0, cnt_rec := 0, cnt_poll := 0, cnt_sensor := 0, output := [] }

/-- Successive buffer writes `buffer[ptr++] = v` for a list of incoming bytes
starting at index `i`. -/
def writeAll (buf : List Nat) (i : Nat) : List Nat → List Nat
  | [] => buf
  | b :: rest => writeAll (buf.set i (b % 256)) (i+1) rest

/-- The checksum value a correct sender computes for a frame with the given
body: 0xFFFF minus the sum of the length byte and all body bytes. -/
def frameCk (body : List Nat) : Nat :=
  0xFFFF - (body.length + PROTOCOL_OVERHEAD + body.sum)

/-- A complete frame on the wire for a given body (command byte plus data):
length byte, body, then the 16-bit checksum low byte first. -/
def mkFrame (body : List Nat) : List Nat :=
  (body.length + PROTOCOL_OVERHEAD) :: body ++ [frameCk body % 256, frameCk body / 256]

/-! ### Arithmetic and list helper lemmas -/

theorem land_ff (x : Nat) : x &&& 255 = x % 256 := by
  have h := Nat.and_pow_two_sub_one_eq_mod x 8
  norm_num at h
  exact h

theorem lor_shift8 (a b : Nat) (ha : a < 256) : a ||| (b <<< 8) = a + 256 * b := by
  have e : (2 : Nat) ^ 8 = 256 := by norm_num
  have ha' : a < 2 ^ 8 := by rw [e]; exact ha
  have h := Nat.mul_add_lt_is_or (i := 8) (b := a) ha' b
  rw [Nat.shiftLeft_eq, Nat.lor_comm, Nat.mul_comm b (2 ^ 8), ← h, e]
  omega

theorem shiftr8 (a : Nat) : a >>> 8 = a / 256 := by
  rw [Nat.shiftRight_eq_div_pow]

theorem sub32_self (t : Nat) : sub32 t t = 0 := by
  unfold sub32
  omega

theorem sum_le_of_bytes (l : List Nat) (h : ∀ b ∈ l, b < 256) : l.sum ≤ l.length * 255 := by
  have h2 := List.sum_le_card_nsmul l 255 (fun x hx => Nat.le_of_lt_succ (h x hx))
  simpa using h2

theorem set_getD_self (l : List Nat) (i : Nat) (a : Nat) (h : i < l.length) :
    (l.set i a).getD i 0 = a := by
  simp [List.getD_eq_getElem?_getD, List.getElem?_set_self h]

theorem set_getD_ne (l : List Nat) (i j : Nat) (a : Nat) (h : i ≠ j) :
    (l.set i a).getD j 0 = l.getD j 0 := by
  simp [List.getD_eq_getElem?_getD, List.getElem?_set_ne h]

theorem writeAll_length (p : List Nat) : ∀ (buf : List Nat) (i : Nat),
    (writeAll buf i p).length = buf.length := by
  induction p with
  | nil => intro buf i; rfl
  | cons b rest ih =>
      intro buf i
      simp [writeAll, ih]

theorem writeAll_getD_out (p : List Nat) : ∀ (buf : List Nat) (i j : Nat),
    (j < i ∨ i + p.length ≤ j) → (writeAll buf i p).getD j 0 = buf.getD j 0 := by
  induction p with
  | nil => intro buf i j _; rfl
  | cons b rest ih =>
      intro buf i j hj
      simp only [writeAll]
      have hj' : j < i ∨ i + 1 + rest.length ≤ j := by
        simp only [List.length_cons] at hj
        omega
      rw [ih (buf.set i (b % 256)) (i+1) j (by omega)]
      exact set_getD_ne buf i j (b % 256) (by omega)

theorem writeAll_getD_lt (p : List Nat) : ∀ (buf : List Nat) (i k : Nat),
    k < p.length → i + p.length ≤ buf.length →
    (writeAll buf i p).getD (i + k) 0 = p.getD k 0 % 256 := by
  induction p with
  | nil => intro buf i k hk; simp at hk
  | cons b rest ih =>
      intro buf i k hk hlen
      simp only [writeAll]
      match k with
      | 0 =>
          have e : i + 0 = i := rfl
          rw [e, writeAll_getD_out rest (buf.set i (b % 256)) (i+1) i (Or.inl (by omega))]
          exact set_getD_self buf i (b % 256)
            (by simp only [List.length_cons] at hlen; omega)
      | k' + 1 =>
          have e : i + (k' + 1) = (i + 1) + k' := by omega
          rw [e, ih (buf.set i (b % 256)) (i+1) k'
                (by simp only [List.length_cons] at hk; omega)
                (by simp only [List.length_set, List.length_cons] at hlen ⊢; omega)]
          rfl

theorem getD_range_map (f : Nat → Nat) (n i : Nat) (h : i < n) :
    ((List.range n).map f).getD i 0 = f i := by
  simp [List.getD_eq_getElem?_getD, List.getElem?_map, List.getElem?_range h]

theorem processBytes_append (s : IBusState) (l1 l2 : List (Nat × Nat)) :
    processBytes s (l1 ++ l2) = processBytes (processBytes s l1) l2 := by
  simp [processBytes, List.foldl_append]

theorem processBytes_cons (s : IBusState) (p : Nat × Nat) (l : List (Nat × Nat)) :
    processBytes s (p :: l) = processBytes (step s p.1 p.2) l := rfl

theorem processBytes_nil (s : IBusState) : processBytes s [] = s := rfl

/-! ### Characterisations of one parser step in each state -/

theorem step_gap (s : IBusState) (now v : Nat)
    (h : PROTOCOL_TIMEGAP ≤ sub32 now s.last) :
    step s now v = step { s with state := FsmState.GET_LENGTH } now v := by
  simp only [step, h, if_pos]

theorem step_GET_LENGTH_ok (s : IBusState) (now v : Nat)
    (hgap : sub32 now s.last < PROTOCOL_TIMEGAP) (hst : s.state = FsmState.GET_LENGTH)
    (hlo : PROTOCOL_OVERHEAD < v) (hhi : v ≤ PROTOCOL_LENGTH) :
    step s now v =
      { s with last := now % 4294967296, ptr := 0,
                len := v - PROTOCOL_OVERHEAD, chksum := 0xFFFF - v,
                state := FsmState.GET_DATA } := by
  have hv : v % 256 = v := by
    simp only [PROTOCOL_LENGTH] at hhi
    omega
  simp only [step, if_neg (by omega : ¬ PROTOCOL_TIMEGAP ≤ sub32 now s.last), hst, hv]
  rw [if_pos ⟨hhi, hlo⟩]

theorem step_GET_LENGTH_err (s : IBusState) (now v : Nat)
    (hgap : sub32 now s.last < PROTOCOL_TIMEGAP) (hst : s.state = FsmState.GET_LENGTH)
    (hbad : ¬ (v % 256 ≤ PROTOCOL_LENGTH ∧ PROTOCOL_OVERHEAD < v % 256)) :
    step s now v =
      { s with last := now % 4294967296,
                cnt_err := s.cnt_err + 1, state := FsmState.DISCARD } := by
  simp only [step, if_neg (by omega : ¬ PROTOCOL_TIMEGAP ≤ sub32 now s.last), hst]
  rw [if_neg hbad]

theorem step_GET_DATA_mid (s : IBusState) (now v : Nat)
    (hgap : sub32 now s.last < PROTOCOL_TIMEGAP) (hst : s.state = FsmState.GET_DATA)
    (hne : s.ptr + 1 ≠ s.len) :
    step s now v =
      { s with last := now % 4294967296,
                buffer := s.buffer.set s.ptr (v % 256), ptr := s.ptr + 1,
                chksum := (s.chksum % 65536 + 65536 - v % 256) % 65536 } := by
  simp only [step, if_neg (by omega : ¬ PROTOCOL_TIMEGAP ≤ sub32 now s.last), hst]
  rw [if_neg hne]

theorem step_GET_DATA_last (s : IBusState) (now v : Nat)
    (hgap : sub32 now s.last < PROTOCOL_TIMEGAP) (hst : s.state = FsmState.GET_DATA)
    (heq : s.ptr + 1 = s.len) :
    step s now v =
      { s with last := now % 4294967296,
                buffer := s.buffer.set s.ptr (v % 256), ptr := s.ptr + 1,
                chksum := (s.chksum % 65536 + 65536 - v % 256) % 65536,
                state := FsmState.GET_CHKSUML } := by
  simp only [step, if_neg (by omega : ¬ PROTOCOL_TIMEGAP ≤ sub32 now s.last), hst]
  rw [if_pos heq]

theorem step_GET_CHKSUML (s : IBusState) (now v : Nat)
    (hgap : sub32 now s.last < PROTOCOL_TIMEGAP) (hst : s.state = FsmState.GET_CHKSUML) :
    step s now v =
      { s with last := now % 4294967296, lchksum := v % 256,
                state := FsmState.GET_CHKSUMH } := by
  simp only [step, if_neg (by omega : ¬ PROTOCOL_TIMEGAP ≤ sub32 now s.last), hst]

theorem step_GET_CHKSUMH_mismatch (s : IBusState) (now v : Nat)
    (hgap : sub32 now s.last < PROTOCOL_TIMEGAP) (hst : s.state = FsmState.GET_CHKSUMH)
    (hck : s.chksum % 65536 ≠ ((v % 256) <<< 8) + s.lchksum % 256) :
    step s now v =
      { s with last := now % 4294967296, state := FsmState.DISCARD } := by
  simp only [step, if_neg (by omega : ¬ PROTOCOL_TIMEGAP ≤ sub32 now s.last), hst]
  rw [if_neg hck]

theorem step_GET_CHKSUMH_servo (s : IBusState) (now v : Nat)
    (hgap : sub32 now s.last < PROTOCOL_TIMEGAP) (hst : s.state = FsmState.GET_CHKSUMH)
    (hck : s.chksum % 65536 = ((v % 256) <<< 8) + s.lchksum % 256)
    (hcmd : s.buffer.getD 0 0 = PROTOCOL_COMMAND40) :
    step s now v =
      { s with last := now % 4294967296,
                channel := decodeChannels s.buffer, cnt_rec := s.cnt_rec + 1,
                state := FsmState.DISCARD } := by
  simp only [step, if_neg (by omega : ¬ PROTOCOL_TIMEGAP ≤ sub32 now s.last), hst]
  rw [if_pos hck, if_pos hcmd]

theorem step_GET_CHKSUMH_sensor (s : IBusState) (now v : Nat)
    (hgap : sub32 now s.last < PROTOCOL_TIMEGAP) (hst : s.state = FsmState.GET_CHKSUMH)
    (hck : s.chksum % 65536 = ((v % 256) <<< 8) + s.lchksum % 256)
    (hcmd : s.buffer.getD 0 0 ≠ PROTOCOL_COMMAND40)
    (hsens : s.buffer.getD 0 0 &&& 0x0f ≤ s.sensorCount ∧ 0 < s.buffer.getD 0 0 &&& 0x0f ∧
             s.len = 1 ∧ s.enablesensor) :
    step s now v =
      { (sensorDispatch { s with last := now % 4294967296 } (s.buffer.getD 0 0 &&& 0x0f)) with
        state := FsmState.DISCARD } := by
  simp only [step, if_neg (by omega : ¬ PROTOCOL_TIMEGAP ≤ sub32 now s.last), hst]
  rw [if_pos hck, if_neg hcmd, if_pos hsens]

/-! ### Processing a full frame -/

theorem run_data (p : List Nat) : ∀ (s : IBusState) (t : Nat),
    s.state = FsmState.GET_DATA → t < 4294967296 → sub32 t s.last < PROTOCOL_TIMEGAP →
    p ≠ [] → s.ptr + p.length = s.len →
    (∀ b ∈ p, b < 256) → p.sum ≤ s.chksum → s.chksum < 65536 →
    processBytes s (p.map (fun b => (t, b))) =
      { s with last := t, buffer := writeAll s.buffer s.ptr p, ptr := s.len,
               chksum := s.chksum - p.sum, state := FsmState.GET_CHKSUML } := by
  induction p with
  | nil => intro s t _ _ _ hne; exact absurd rfl hne
  | cons b rest ih =>
      intro s t hst ht hgap _ hptr hb hsum hck
      have hb0 : b < 256 := hb b (by simp)
      have e1 : t % 4294967296 = t := Nat.mod_eq_of_lt ht
      have e2 : b % 256 = b := Nat.mod_eq_of_lt hb0
      simp only [List.sum_cons] at hsum
      simp only [List.length_cons] at hptr
      have echk : (s.chksum % 65536 + 65536 - b % 256) % 65536 = s.chksum - b := by
        rw [e2]; omega
      by_cases hrest : rest = []
      · subst hrest
        simp only [List.length_nil] at hptr
        have hlast : s.ptr + 1 = s.len := by omega
        show step s t b = _
        rw [step_GET_DATA_last s t b hgap hst hlast, echk, e1, e2]
        have esum : (b :: ([] : List Nat)).sum = b := by simp
        simp only [writeAll, esum, IBusState.mk.injEq]
        and_intros <;> first | rfl | rw [e2] | omega | simp
      · have hlen : rest.length ≠ 0 := fun h => hrest (List.eq_nil_of_length_eq_zero h)
        have hmid : s.ptr + 1 ≠ s.len := by omega
        have step1 := step_GET_DATA_mid s t b hgap hst hmid
        rw [echk, e1, e2] at step1
        show processBytes (step s t b) (rest.map (fun b => (t, b))) = _
        rw [step1]
        rw [ih _ t (by simp [hst]) ht (by simp [sub32_self, PROTOCOL_TIMEGAP]) hrest
              (by simp; omega) (fun x hx => hb x (by simp [hx]))
              (by simp; omega) (by simp; omega)]
        simp only [writeAll, e2, List.sum_cons, IBusState.mk.injEq]
        and_intros <;> first | rfl | rw [e2] | omega | simp

theorem step_GET_LENGTH_start (s : IBusState) (now v : Nat)
    (hstart : s.state = FsmState.GET_LENGTH ∨ PROTOCOL_TIMEGAP ≤ sub32 now s.last)
    (hlo : PROTOCOL_OVERHEAD < v) (hhi : v ≤ PROTOCOL_LENGTH) :
    step s now v =
      { s with last := now % 4294967296, ptr := 0,
                len := v - PROTOCOL_OVERHEAD, chksum := 0xFFFF - v,
                state := FsmState.GET_DATA } := by
  by_cases hgap : PROTOCOL_TIMEGAP ≤ sub32 now s.last
  · have hv : v % 256 = v := by
      simp only [PROTOCOL_LENGTH] at hhi
      omega
    simp only [step, if_pos hgap, hv]
    rw [if_pos ⟨hhi, hlo⟩]
  · rcases hstart with hst | h
    · exact step_GET_LENGTH_ok s now v (by omega) hst hlo hhi
    · exact absurd h hgap

theorem run_to_chksumh (body : List Nat) (ckl : Nat) (s : IBusState) (t : Nat)
    (hstart : s.state = FsmState.GET_LENGTH ∨ PROTOCOL_TIMEGAP ≤ sub32 t s.last)
    (ht : t < 4294967296)
    (hne : body ≠ []) (hlen : body.length ≤ 29) (hb : ∀ b ∈ body, b < 256)
    (hckl : ckl < 256) :
    processBytes s
        (((body.length + PROTOCOL_OVERHEAD) :: body ++ [ckl]).map (fun b => (t, b))) =
      { s with last := t, ptr := body.length, len := body.length,
                chksum := 0xFFFF - (body.length + PROTOCOL_OVERHEAD + body.sum),
                lchksum := ckl,
                buffer := writeAll s.buffer 0 body,
                state := FsmState.GET_CHKSUMH } := by
  have e1 : t % 4294967296 = t := Nat.mod_eq_of_lt ht
  have hlen1 : 1 ≤ body.length := by
    cases body with
    | nil => exact absurd rfl hne
    | cons x xs => simp
  have hsum : body.sum ≤ body.length * 255 := sum_le_of_bytes body hb
  have hLlo : PROTOCOL_OVERHEAD < body.length + PROTOCOL_OVERHEAD := by
    simp only [PROTOCOL_OVERHEAD]
    omega
  have hLhi : body.length + PROTOCOL_OVERHEAD ≤ PROTOCOL_LENGTH := by
    simp only [PROTOCOL_OVERHEAD, PROTOCOL_LENGTH]
    omega
  have hmap : (((body.length + PROTOCOL_OVERHEAD) :: body ++ [ckl]).map (fun b => (t, b))) =
      (t, body.length + PROTOCOL_OVERHEAD) :: (body.map (fun b => (t, b)) ++ [(t, ckl)]) := by
    simp
  have eck : ckl % 256 = ckl := Nat.mod_eq_of_lt hckl
  rw [hmap, processBytes_cons,
      step_GET_LENGTH_start s t (body.length + PROTOCOL_OVERHEAD) hstart hLlo hLhi,
      processBytes_append]
  simp only [e1, Nat.add_sub_cancel]
  rw [run_data body _ t rfl ht
        (by rw [sub32_self]; simp [PROTOCOL_TIMEGAP]) hne (by simp) hb
        (by simp only [PROTOCOL_OVERHEAD]; omega)
        (by simp only [PROTOCOL_OVERHEAD]; omega)]
  simp only []
  rw [show ∀ (x : IBusState), processBytes x [(t, ckl)] = step x t ckl from fun x => rfl]
  rw [step_GET_CHKSUML _ t ckl (by rw [sub32_self]; simp [PROTOCOL_TIMEGAP]) rfl]
  simp only [e1, eck, IBusState.mk.injEq]
  and_intros <;> first | rfl | omega | simp

theorem frameCk_lt (body : List Nat) : frameCk body < 65536 := by
  simp only [frameCk]
  omega

theorem servoFrame_run (data : List Nat) (s : IBusState) (t : Nat)
    (hstart : s.state = FsmState.GET_LENGTH ∨ PROTOCOL_TIMEGAP ≤ sub32 t s.last)
    (ht : t < 4294967296) (hlen : data.length ≤ 28) (hb : ∀ b ∈ data, b < 256)
    (hbuf : s.buffer.length = 32) :
    processBytes s ((mkFrame (0x40 :: data)).map (fun b => (t, b))) =
      { s with last := t, ptr := data.length + 1, len := data.length + 1,
                chksum := frameCk (0x40 :: data),
                lchksum := frameCk (0x40 :: data) % 256,
                buffer := writeAll s.buffer 0 (0x40 :: data),
                channel := decodeChannels (writeAll s.buffer 0 (0x40 :: data)),
                cnt_rec := s.cnt_rec + 1,
                state := FsmState.DISCARD } := by
  have e1 : t % 4294967296 = t := Nat.mod_eq_of_lt ht
  have hck : frameCk (0x40 :: data) < 65536 := frameCk_lt _
  have hmap : (mkFrame (0x40 :: data)).map (fun b => (t, b)) =
      (((0x40 :: data).length + PROTOCOL_OVERHEAD) :: (0x40 :: data) ++
        [frameCk (0x40 :: data) % 256]).map (fun b => (t, b)) ++
      [(t, frameCk (0x40 :: data) / 256)] := by
    simp [mkFrame]
  rw [hmap, processBytes_append]
  rw [run_to_chksumh (0x40 :: data) (frameCk (0x40 :: data) % 256) s t hstart ht
        (by simp) (by simp; omega)
        (by intro b hb2; rcases List.mem_cons.mp hb2 with h | h
            · omega
            · exact hb b h)
        (Nat.mod_lt _ (by norm_num))]
  have hcmd : (writeAll s.buffer 0 (0x40 :: data)).getD 0 0 = PROTOCOL_COMMAND40 := by
    have h := writeAll_getD_lt (0x40 :: data) s.buffer 0 0 (by simp) (by simp [hbuf]; omega)
    simpa [PROTOCOL_COMMAND40] using h
  rw [show ∀ (x : IBusState), processBytes x [(t, frameCk (0x40 :: data) / 256)] =
        step x t (frameCk (0x40 :: data) / 256) from fun x => rfl]
  rw [step_GET_CHKSUMH_servo _ t _ (by rw [sub32_self]; simp [PROTOCOL_TIMEGAP]) rfl
        (by simp only [frameCk, List.length_cons, List.sum_cons]
            rw [Nat.shiftLeft_eq]
            norm_num
            omega)
        (by simpa using hcmd)]
  simp only [e1, IBusState.mk.injEq, frameCk]
  and_intros <;> first | rfl | omega | simp

theorem getD_lt_of_bytes (l : List Nat) (hb : ∀ b ∈ l, b < 256) (n : Nat) (hn : n < l.length) :
    l.getD n 0 < 256 := by
  rw [List.getD_eq_getElem l 0 hn]
  exact hb _ (List.getElem_mem hn)

theorem servoFrame_readChannel (data : List Nat) (s : IBusState) (t : Nat)
    (hstart : s.state = FsmState.GET_LENGTH ∨ PROTOCOL_TIMEGAP ≤ sub32 t s.last)
    (ht : t < 4294967296) (hlen : data.length ≤ 28) (hb : ∀ b ∈ data, b < 256)
    (hbuf : s.buffer.length = 32) (i : Nat) (hi : i < 10) (h2i : 2 * i + 2 ≤ data.length) :
    readChannel (processBytes s ((mkFrame (0x40 :: data)).map (fun b => (t, b)))) i =
      data.getD (2 * i) 0 + 256 * data.getD (2 * i + 1) 0 := by
  rw [servoFrame_run data s t hstart ht hlen hb hbuf]
  have hlo : data.getD (2 * i) 0 < 256 := getD_lt_of_bytes data hb _ (by omega)
  have hhi : data.getD (2 * i + 1) 0 < 256 := getD_lt_of_bytes data hb _ (by omega)
  have hwlen : 0 + (0x40 :: data).length ≤ s.buffer.length := by
    simp [hbuf]
    omega
  have hg1 : (writeAll s.buffer 0 (0x40 :: data)).getD (2 * i + 1) 0 = data.getD (2 * i) 0 := by
    have h := writeAll_getD_lt (0x40 :: data) s.buffer 0 (2 * i + 1) (by simp; omega) hwlen
    simp only [Nat.zero_add] at h
    rw [h, List.getD_cons_succ]
    exact Nat.mod_eq_of_lt hlo
  have hg2 : (writeAll s.buffer 0 (0x40 :: data)).getD (2 * i + 2) 0 = data.getD (2 * i + 1) 0 := by
    have h := writeAll_getD_lt (0x40 :: data) s.buffer 0 (2 * i + 2) (by simp; omega) hwlen
    simp only [Nat.zero_add] at h
    rw [h]
    have e : (0x40 :: data).getD (2 * i + 2) 0 = data.getD (2 * i + 1) 0 := List.getD_cons_succ
    rw [e]
    exact Nat.mod_eq_of_lt hhi
  have hch : readChannel
      { s with last := t, ptr := data.length + 1, len := data.length + 1,
                chksum := frameCk (0x40 :: data),
                lchksum := frameCk (0x40 :: data) % 256,
                buffer := writeAll s.buffer 0 (0x40 :: data),
                channel := decodeChannels (writeAll s.buffer 0 (0x40 :: data)),
                cnt_rec := s.cnt_rec + 1,
                state := FsmState.DISCARD } i =
      (decodeChannels (writeAll s.buffer 0 (0x40 :: data))).getD i 0 := by
    simp only [readChannel, PROTOCOL_CHANNELS]
    rw [if_pos (by omega : i % 256 < 10)]
    have e : i % 256 = i := Nat.mod_eq_of_lt (by omega)
    rw [e]
  rw [hch]
  simp only [decodeChannels, PROTOCOL_CHANNELS]
  rw [getD_range_map _ 10 i hi]
  rw [hg1, hg2, lor_shift8 _ _ hlo]
  omega

theorem land_0f_discover (a : Nat) (ha : a < 16) :
    (0x80 + a) &&& 0x0f = a ∧ (0x80 + a) &&& 0xf0 = 0x80 := by
  interval_cases a <;> exact ⟨rfl, rfl⟩

theorem land_0f_type (a : Nat) (ha : a < 16) :
    (0x90 + a) &&& 0x0f = a ∧ (0x90 + a) &&& 0xf0 = 0x90 := by
  interval_cases a <;> exact ⟨rfl, rfl⟩

theorem land_0f_value (a : Nat) (ha : a < 16) :
    (0xA0 + a) &&& 0x0f = a ∧ (0xA0 + a) &&& 0xf0 = 0xA0 := by
  interval_cases a <;> exact ⟨rfl, rfl⟩

theorem sensorDispatch_discover (s : IBusState) (adr : Nat) (h16 : adr < 16)
    (hb0 : s.buffer.getD 0 0 = 0x80 + adr) (hadr : 1 ≤ adr) :
    sensorDispatch s adr =
      { s with cnt_poll := s.cnt_poll + 1,
                chksum := 0xFFFF - (0x04 + 0x80 + adr),
                output := s.output ++ [0x04, 0x80 + adr,
                  (0xFFFF - (0x04 + 0x80 + adr)) % 256,
                  (0xFFFF - (0x04 + 0x80 + adr)) / 256] } := by
  have hmask := land_0f_discover adr h16
  have e1 : (0x80 + adr) % 256 = 0x80 + adr := by omega
  have e2 : (0xFFFF - (0x04 + 0x80 + adr)) % 65536 = 0xFFFF - (0x04 + 0x80 + adr) := by omega
  have hpos : adr > 0 := hadr
  have hb0' := hb0
  rw [List.getD_eq_getElem?_getD] at hb0'
  simp [sensorDispatch, hb0', hmask.2, e1, e2, land_ff, shiftr8, hpos,
        PROTOCOL_COMMAND_DISCOVER, PROTOCOL_COMMAND_TYPE, PROTOCOL_COMMAND_VALUE]

theorem sensorDispatch_type (s : IBusState) (adr : Nat) (h16 : adr < 16)
    (hb0 : s.buffer.getD 0 0 = 0x90 + adr) (hadr : 1 ≤ adr) :
    sensorDispatch s adr =
      let ty := s.sensorType.getD adr 0 % 256
      let c := 0xFFFF - (0x06 + 0x90 + adr + ty + 2)
      { s with chksum := c,
                output := s.output ++ [0x06, 0x90 + adr, ty, 0x02, c % 256, c / 256] } := by
  have hmask := land_0f_type adr h16
  have e1 : (0x90 + adr) % 256 = 0x90 + adr := by omega
  have hty : s.sensorType.getD adr 0 % 256 < 256 := Nat.mod_lt _ (by norm_num)
  have e2 : (0xFFFF - (0x06 + 0x90 + adr + s.sensorType.getD adr 0 % 256 + 2)) % 65536 =
      0xFFFF - (0x06 + 0x90 + adr + s.sensorType.getD adr 0 % 256 + 2) := by omega
  have hpos : adr > 0 := hadr
  have hb0' := hb0
  rw [List.getD_eq_getElem?_getD] at hb0'
  simp [sensorDispatch, hb0', hmask.2, e1, e2, land_ff, shiftr8, hpos,
        PROTOCOL_COMMAND_DISCOVER, PROTOCOL_COMMAND_TYPE, PROTOCOL_COMMAND_VALUE]
  omega

theorem sensorDispatch_value (s : IBusState) (adr : Nat) (h16 : adr < 16)
    (hb0 : s.buffer.getD 0 0 = 0xA0 + adr) (hadr : 1 ≤ adr) :
    sensorDispatch s adr =
      let sv := s.sensorValue.getD adr 0 % 65536
      let c := 0xFFFF - (0x06 + 0xA0 + adr + sv / 256 + sv % 256)
      { s with cnt_sensor := s.cnt_sensor + 1, chksum := c,
                output := s.output ++ [0x06, 0xA0 + adr, sv % 256, sv / 256,
                                       c % 256, c / 256] } := by
  have hmask := land_0f_value adr h16
  have e1 : (0xA0 + adr) % 256 = 0xA0 + adr := by omega
  have hsv : s.sensorValue.getD adr 0 % 65536 < 65536 := Nat.mod_lt _ (by norm_num)
  have e2 : (0xFFFF - (0x06 + 0xA0 + adr + (s.sensorValue.getD adr 0 % 65536) / 256 +
      (s.sensorValue.getD adr 0 % 65536) % 256)) % 65536 =
      0xFFFF - (0x06 + 0xA0 + adr + (s.sensorValue.getD adr 0 % 65536) / 256 +
      (s.sensorValue.getD adr 0 % 65536) % 256) := by omega
  have hpos : adr > 0 := hadr
  have hb0' := hb0
  rw [List.getD_eq_getElem?_getD] at hb0'
  simp [sensorDispatch, hb0', hmask.2, e1, e2, land_ff, shiftr8, hpos,
        PROTOCOL_COMMAND_DISCOVER, PROTOCOL_COMMAND_TYPE, PROTOCOL_COMMAND_VALUE]
  omega

theorem pollFrame_run (s : IBusState) (t hi adr : Nat)
    (hstart : s.state = FsmState.GET_LENGTH ∨ PROTOCOL_TIMEGAP ≤ sub32 t s.last)
    (ht : t < 4294967296) (hhi : hi = 0x80 ∨ hi = 0x90 ∨ hi = 0xA0)
    (hadr1 : 1 ≤ adr) (h16 : adr < 16) (hadr2 : adr ≤ s.sensorCount)
    (hen : s.enablesensor = true) (hbuf : s.buffer.length = 32) :
    processBytes s ((mkFrame [hi + adr]).map (fun b => (t, b))) =
      { (sensorDispatch
          { s with last := t, ptr := 1, len := 1,
                    chksum := frameCk [hi + adr], lchksum := frameCk [hi + adr] % 256,
                    buffer := s.buffer.set 0 (hi + adr),
                    state := FsmState.GET_CHKSUMH } adr) with
        state := FsmState.DISCARD } := by
  have hb0 : hi + adr < 256 := by rcases hhi with h | h | h <;> omega
  have hb0m : (hi + adr) % 256 = hi + adr := Nat.mod_eq_of_lt hb0
  have hckw : frameCk [hi + adr] < 65536 := frameCk_lt _
  have hmap : (mkFrame [hi + adr]).map (fun b => (t, b)) =
      ((([hi + adr].length + PROTOCOL_OVERHEAD) :: [hi + adr] ++
        [frameCk [hi + adr] % 256]).map (fun b => (t, b))) ++
      [(t, frameCk [hi + adr] / 256)] := by
    simp [mkFrame]
  rw [hmap, processBytes_append]
  rw [run_to_chksumh [hi + adr] (frameCk [hi + adr] % 256) s t hstart ht
        (by simp) (by simp) (by intro b hb2; simp at hb2; omega)
        (Nat.mod_lt _ (by norm_num))]
  rw [show ∀ (x : IBusState), processBytes x [(t, frameCk [hi + adr] / 256)] =
        step x t (frameCk [hi + adr] / 256) from fun x => rfl]
  have hget0 : ((writeAll s.buffer 0 [hi + adr]).getD 0 0) = hi + adr := by
    simp only [writeAll, hb0m]
    exact set_getD_self s.buffer 0 (hi + adr) (by omega)
  have hmask : (hi + adr) &&& 0x0f = adr := by
    rcases hhi with h | h | h <;> subst h
    · exact (land_0f_discover adr h16).1
    · exact (land_0f_type adr h16).1
    · exact (land_0f_value adr h16).1
  rw [step_GET_CHKSUMH_sensor _ t _ (by rw [sub32_self]; simp [PROTOCOL_TIMEGAP]) rfl
        (by simp only [frameCk, List.length_singleton, List.sum_cons, List.sum_nil]
            rw [Nat.shiftLeft_eq]
            norm_num
            omega)
        (by simp only [hget0]
            rcases hhi with h | h | h <;> subst h <;> simp [PROTOCOL_COMMAND40] <;> omega)
        (by have hx : (writeAll s.buffer 0 [hi + adr]).getD 0 0 &&& 0x0f = adr := by
              rw [hget0, hmask]
            exact ⟨by rw [hx]; exact hadr2, by rw [hx]; omega, rfl, by exact hen⟩)]
  simp only [hget0, hmask]
  have e1 : t % 4294967296 = t := Nat.mod_eq_of_lt ht
  simp only [e1, writeAll, hb0m, frameCk, List.length_singleton, List.sum_cons,
             List.sum_nil, Nat.add_zero]

theorem step_DISCARD (s : IBusState) (now v : Nat)
    (hgap : sub32 now s.last < PROTOCOL_TIMEGAP) (hst : s.state = FsmState.DISCARD) :
    step s now v = { s with last := now % 4294967296 } := by
  simp only [step, if_neg (by omega : ¬ PROTOCOL_TIMEGAP ≤ sub32 now s.last), hst]

/-! ### Concrete scenarios -/

/-- The example byte stream from the library header comment:
a full set-channels frame with 14 encoded channels. -/
def exFrame : List Nat :=
  [0x20, 0x40, 0xDB, 0x05, 0xDC, 0x05, 0x54, 0x05, 0xDC, 0x05, 0xE8, 0x03, 0xD0, 0x07,
   0xD2, 0x05, 0xE8, 0x03, 0xDC, 0x05, 0xDC, 0x05, 0xDC, 0x05, 0xDC, 0x05, 0xDC, 0x05,
   0xDC, 0x05, 0xDA, 0xF3]

/-- Result of processing `exFrame` on a fresh instance (all bytes arrive in a
burst at time 10, after a silent gap since construction). -/
def exScenario : IBusState :=
  processBytes (initState false) (exFrame.map (fun b => (10, b)))

/-- First counterexample frame: a valid set-channels frame carrying two
channels 0x1111 and 0x2222. -/
def cxFrameA : List Nat := mkFrame [0x40, 0x11, 0x11, 0x22, 0x22]

/-- Second counterexample frame: length and data accepted, but the checksum
bytes are wrong (0x00 0x00), so the frame is dropped after filling
`buffer[0..4]` with 40 01 01 03 03. -/
def cxFrameB : List Nat := [0x08, 0x40, 0x01, 0x01, 0x03, 0x03, 0x00, 0x00]

/-- Third counterexample frame: a valid set-channels frame carrying a single
channel 0x0707. -/
def cxFrameC : List Nat := mkFrame [0x40, 0x07, 0x07]

def cxPre : IBusState :=
  processBytes (initState false)
    (cxFrameA.map (fun b => (10, b)) ++ cxFrameB.map (fun b => (20, b)))

def cxPost : IBusState := processBytes cxPre (cxFrameC.map (fun b => (30, b)))

/-- Fresh instance with telemetry enabled and three sensors registered. -/
def sensorScenarioBase : IBusState :=
  (addSensor (addSensor (addSensor (initState true) 0).1 0).1 0).1

/-- Result of a discover poll for address 2 on `sensorScenarioBase`. -/
def discoverScenario : IBusState :=
  processBytes sensorScenarioBase ((mkFrame [0x82]).map (fun b => (10, b)))

/-! ### Claim theorems -/

/-- C1: for every set-channels frame (command byte 0x40) that passes length and
checksum validation and encodes N channels (N at most the channel maximum),
after processing, readChannel(i) returns the little-endian 16-bit value formed
from payload bytes at offsets 2i and 2i+1 for every i < N; and in the concrete
scenario 20 40 DB 05 ... DA F3, readChannel(0) = 0x05DB, readChannel(1) =
0x05DC and readChannel(4) = 0x03E8. -/
theorem C1_set_channels_decode (N : Nat) (data : List Nat) (s : IBusState) (t : Nat)
    (hN : N ≤ PROTOCOL_CHANNELS) (hlen : data.length = 2 * N)
    (hb : ∀ b ∈ data, b < 256) (hbuf : s.buffer.length = 32) (ht : t < 4294967296)
    (hstart : s.state = FsmState.GET_LENGTH ∨ PROTOCOL_TIMEGAP ≤ sub32 t s.last) :
    (∀ i, i < N →
      readChannel (processBytes s ((mkFrame (0x40 :: data)).map (fun b => (t, b)))) i =
        data.getD (2 * i) 0 + 256 * data.getD (2 * i + 1) 0) ∧
    readChannel exScenario 0 = 0x05DB ∧
    readChannel exScenario 1 = 0x05DC ∧
    readChannel exScenario 4 = 0x03E8 := by
  simp only [PROTOCOL_CHANNELS] at hN
  refine ⟨fun i hi => servoFrame_readChannel data s t hstart ht (by omega) hb hbuf i
    (by omega) (by omega), by decide, by decide, by decide⟩

theorem C1_witness :
    readChannel (processBytes (initState false)
        ((mkFrame [0x40, 0xAB, 0x01]).map (fun b => (10, b)))) 0 = 0xAB + 256 * 0x01 :=
  (C1_set_channels_decode 1 [0xAB, 0x01] (initState false) 10 (by decide) (by decide)
    (by decide) (by decide) (by decide) (Or.inr (by decide))).1 0 (by decide)

/-- C2 counterexample: `cxFrameC` is a valid set-channels frame encoding
N = 1 channel (it is accepted: cnt_rec increments), yet channel 1 — an index
ge N — does not keep its previous value 0x2222: it is overwritten with 0x0303,
bytes left in the internal buffer by the checksum-rejected frame `cxFrameB`. -/
theorem C2_counterexample :
    cxFrameC = mkFrame [0x40, 0x07, 0x07] ∧
    cxPost.cnt_rec = cxPre.cnt_rec + 1 ∧
    readChannel cxPre 1 = 0x2222 ∧
    readChannel cxPost 0 = 0x0707 ∧
    readChannel cxPost 1 = 0x0303 := by
  refine ⟨rfl, by decide, by decide, by decide, by decide⟩

/-- C2 (amended): after a valid set-channels frame encoding N < 10 channels,
every channel with index N le i < 10 is overwritten with the little-endian
pair formed from the internal buffer bytes at offsets 2i+1 and 2i+2 — whatever
earlier frames left there — rather than being guaranteed to keep its previous
value. -/
theorem C2_stale_buffer_rewrite (N : Nat) (data : List Nat) (s : IBusState) (t : Nat)
    (hN : N ≤ PROTOCOL_CHANNELS) (hlen : data.length = 2 * N)
    (hb : ∀ b ∈ data, b < 256) (hbuf : s.buffer.length = 32) (ht : t < 4294967296)
    (hstart : s.state = FsmState.GET_LENGTH ∨ PROTOCOL_TIMEGAP ≤ sub32 t s.last)
    (i : Nat) (hiN : N ≤ i) (hi : i < PROTOCOL_CHANNELS) :
    readChannel (processBytes s ((mkFrame (0x40 :: data)).map (fun b => (t, b)))) i =
      (s.buffer.getD (2 * i + 1) 0 ||| (s.buffer.getD (2 * i + 2) 0 <<< 8)) % 65536 := by
  simp only [PROTOCOL_CHANNELS] at hN hi
  rw [servoFrame_run data s t hstart ht (by omega) hb hbuf]
  have hg1 : (writeAll s.buffer 0 (0x40 :: data)).getD (2 * i + 1) 0 =
      s.buffer.getD (2 * i + 1) 0 :=
    writeAll_getD_out (0x40 :: data) s.buffer 0 (2 * i + 1) (Or.inr (by simp; omega))
  have hg2 : (writeAll s.buffer 0 (0x40 :: data)).getD (2 * i + 2) 0 =
      s.buffer.getD (2 * i + 2) 0 :=
    writeAll_getD_out (0x40 :: data) s.buffer 0 (2 * i + 2) (Or.inr (by simp; omega))
  simp only [readChannel, PROTOCOL_CHANNELS]
  rw [if_pos (by omega : i % 256 < 10), (by omega : i % 256 = i)]
  simp only [decodeChannels, PROTOCOL_CHANNELS]
  rw [getD_range_map _ 10 i (by omega), hg1, hg2]

theorem C2_stale_buffer_rewrite_witness :
    readChannel (processBytes (initState false)
        ((mkFrame [0x40, 0x07, 0x07]).map (fun b => (10, b)))) 3 =
      (((initState false).buffer.getD 7 0 |||
        ((initState false).buffer.getD 8 0 <<< 8)) % 65536) :=
  C2_stale_buffer_rewrite 1 [0x07, 0x07] (initState false) 10 (by decide) (by decide)
    (by decide) (by decide) (by decide) (Or.inr (by decide)) 3 (by decide) (by decide)

/-- C3: a frame whose received 16-bit checksum differs from the computed
accumulator leaves the channel set, the sensor registry (types and values),
all counters and the output stream unchanged, and leaves the parser in the
DISCARD state. -/
theorem C3_checksum_mismatch (body : List Nat) (ckl ckh : Nat) (s : IBusState) (t : Nat)
    (hstart : s.state = FsmState.GET_LENGTH ∨ PROTOCOL_TIMEGAP ≤ sub32 t s.last)
    (ht : t < 4294967296) (hne : body ≠ []) (hlen : body.length ≤ 29)
    (hb : ∀ b ∈ body, b < 256) (hckl : ckl < 256) (hckh : ckh < 256)
    (hmis : ckh * 256 + ckl ≠ frameCk body) :
    let fin := processBytes s
      (((body.length + PROTOCOL_OVERHEAD) :: body ++ [ckl, ckh]).map (fun b => (t, b)))
    fin.channel = s.channel ∧ fin.sensorType = s.sensorType ∧
    fin.sensorValue = s.sensorValue ∧ fin.cnt_err = s.cnt_err ∧
    fin.cnt_rec = s.cnt_rec ∧ fin.cnt_poll = s.cnt_poll ∧
    fin.cnt_sensor = s.cnt_sensor ∧ fin.output = s.output ∧
    fin.state = FsmState.DISCARD := by
  have hmap : (((body.length + PROTOCOL_OVERHEAD) :: body ++ [ckl, ckh]).map (fun b => (t, b))) =
      (((body.length + PROTOCOL_OVERHEAD) :: body ++ [ckl]).map (fun b => (t, b))) ++
      [(t, ckh)] := by
    simp
  have hfin : processBytes s
      (((body.length + PROTOCOL_OVERHEAD) :: body ++ [ckl, ckh]).map (fun b => (t, b))) =
      { s with last := t, ptr := body.length, len := body.length,
                chksum := 0xFFFF - (body.length + PROTOCOL_OVERHEAD + body.sum),
                lchksum := ckl,
                buffer := writeAll s.buffer 0 body,
                state := FsmState.DISCARD } := by
    rw [hmap, processBytes_append,
        run_to_chksumh body ckl s t hstart ht hne hlen hb hckl]
    rw [show ∀ (x : IBusState), processBytes x [(t, ckh)] = step x t ckh from fun x => rfl]
    rw [step_GET_CHKSUMH_mismatch _ t ckh (by rw [sub32_self]; simp [PROTOCOL_TIMEGAP]) rfl
          (by simp only [frameCk] at hmis
              simp only [PROTOCOL_OVERHEAD] at hmis ⊢
              rw [Nat.shiftLeft_eq]
              norm_num
              omega)]
    simp only [Nat.mod_eq_of_lt ht]
  intro fin
  rw [show fin = processBytes s
      (((body.length + PROTOCOL_OVERHEAD) :: body ++ [ckl, ckh]).map (fun b => (t, b))) from rfl,
     hfin]
  exact ⟨rfl, rfl, rfl, rfl, rfl, rfl, rfl, rfl, rfl⟩

theorem C3_checksum_mismatch_witness :
    let fin := processBytes (initState false)
      ((([0x40, 0x01, 0x02].length + PROTOCOL_OVERHEAD) :: [0x40, 0x01, 0x02] ++
        [0x00, 0x00]).map (fun b => (10, b)))
    fin.channel = (initState false).channel ∧
    fin.sensorType = (initState false).sensorType ∧
    fin.sensorValue = (initState false).sensorValue ∧
    fin.cnt_err = (initState false).cnt_err ∧
    fin.cnt_rec = (initState false).cnt_rec ∧
    fin.cnt_poll = (initState false).cnt_poll ∧
    fin.cnt_sensor = (initState false).cnt_sensor ∧
    fin.output = (initState false).output ∧
    fin.state = FsmState.DISCARD :=
  C3_checksum_mismatch [0x40, 0x01, 0x02] 0x00 0x00 (initState false) 10
    (Or.inr (by decide)) (by decide) (by decide) (by decide) (by decide)
    (by decide) (by decide) (by decide)

/-- C4: if the elapsed time since the previous byte is at least the fixed
inter-frame timing threshold, the incoming byte is processed exactly as if the
parser were in the GET_LENGTH state, regardless of the state it was in, so the
byte starts an independent frame attempt. -/
theorem C4_timegap_resync (s : IBusState) (now v : Nat)
    (h : PROTOCOL_TIMEGAP ≤ sub32 now s.last) :
    step s now v = step { s with state := FsmState.GET_LENGTH } now v :=
  step_gap s now v h

theorem C4_timegap_resync_witness :
    step (initState false) 10 0x20 =
      step { initState false with state := FsmState.GET_LENGTH } 10 0x20 :=
  C4_timegap_resync (initState false) 10 0x20 (by decide)

/-- C5: a byte received in the GET_LENGTH state whose value lies outside the
half-open range (PROTOCOL_OVERHEAD, PROTOCOL_LENGTH] increments the error
counter exactly once and sends the parser to DISCARD, where further bytes of
the frame are consumed without effect; a valid set-channels frame arriving
after a sufficient timing gap then decodes correctly. -/
theorem C5_bad_length_byte (s : IBusState) (now v : Nat)
    (hgap : sub32 now s.last < PROTOCOL_TIMEGAP) (hst : s.state = FsmState.GET_LENGTH)
    (hv : v < 256)
    (hbad : ¬ (PROTOCOL_OVERHEAD < v ∧ v ≤ PROTOCOL_LENGTH)) :
    (step s now v).cnt_err = s.cnt_err + 1 ∧
    (step s now v).state = FsmState.DISCARD ∧
    (∀ (now2 w : Nat), sub32 now2 (step s now v).last < PROTOCOL_TIMEGAP →
       step (step s now v) now2 w = { (step s now v) with last := now2 % 4294967296 }) ∧
    (∀ (data : List Nat) (t2 i : Nat), t2 < 4294967296 →
       PROTOCOL_TIMEGAP ≤ sub32 t2 (step s now v).last →
       data.length ≤ 28 → (∀ b ∈ data, b < 256) → s.buffer.length = 32 →
       i < 10 → 2 * i + 2 ≤ data.length →
       readChannel (processBytes (step s now v)
           ((mkFrame (0x40 :: data)).map (fun b => (t2, b)))) i =
         data.getD (2 * i) 0 + 256 * data.getD (2 * i + 1) 0) := by
  have hvm : v % 256 = v := Nat.mod_eq_of_lt hv
  have hstep := step_GET_LENGTH_err s now v hgap hst
    (by rw [hvm]; simp only [PROTOCOL_LENGTH, PROTOCOL_OVERHEAD] at hbad ⊢; omega)
  refine ⟨by rw [hstep], by rw [hstep], ?_, ?_⟩
  · intro now2 w h2
    exact step_DISCARD (step s now v) now2 w h2 (by rw [hstep])
  · intro data t2 i ht2 hgap2 hdlen hdb hbuf hi h2i
    exact servoFrame_readChannel data (step s now v) t2 (Or.inr hgap2) ht2 hdlen hdb
      (by rw [hstep]; exact hbuf) i hi h2i

theorem C5_bad_length_byte_witness :
    (step { initState false with state := FsmState.GET_LENGTH } 0 0x00).cnt_err =
      { initState false with state := FsmState.GET_LENGTH }.cnt_err + 1 ∧
    (step { initState false with state := FsmState.GET_LENGTH } 0 0x00).state =
      FsmState.DISCARD :=
  let h := C5_bad_length_byte { initState false with state := FsmState.GET_LENGTH } 0 0x00
    (by decide) (by decide) (by decide) (by decide)
  ⟨h.1, h.2.1⟩

/-- C6: round-trip of a sensor value.  After setSensorValue(adr, v) for a
registered address adr, a valid value-query poll frame for adr (payload length
1, telemetry enabled) produces a reply whose two payload bytes are v in
little-endian order, followed by a checksum pair c (low byte first) with
c = 0xFFFF - sum of the four reply frame bytes. -/
theorem C6_value_roundtrip (s : IBusState) (adr v t : Nat)
    (hstart : s.state = FsmState.GET_LENGTH ∨ PROTOCOL_TIMEGAP ≤ sub32 t s.last)
    (ht : t < 4294967296) (hadr1 : 1 ≤ adr) (hadr2 : adr ≤ s.sensorCount)
    (hcap : s.sensorCount ≤ SENSORMAX) (hen : s.enablesensor = true)
    (hbuf : s.buffer.length = 32) (hsvl : s.sensorValue.length = 11) (hv : v < 65536) :
    (processBytes (setSensorMeasurement s adr v)
        ((mkFrame [0xA0 + adr]).map (fun b => (t, b)))).output =
      s.output ++ [0x06, 0xA0 + adr, v % 256, v / 256] ++
        [(0xFFFF - ([0x06, 0xA0 + adr, v % 256, v / 256].sum)) % 256,
         (0xFFFF - ([0x06, 0xA0 + adr, v % 256, v / 256].sum)) / 256] := by
  have hadr16 : adr < 16 := by
    simp only [SENSORMAX] at hcap
    omega
  have ham : adr % 256 = adr := by omega
  have hset : setSensorMeasurement s adr v =
      { s with sensorValue := s.sensorValue.set adr (v % 65536) } := by
    simp only [setSensorMeasurement, ham]
    rw [if_pos hadr2]
  rw [hset]
  rw [pollFrame_run _ t 0xA0 adr (by simpa using hstart) ht (by right; right; rfl)
        hadr1 hadr16 (by simpa using hadr2) (by simpa using hen) (by simpa using hbuf)]
  rw [sensorDispatch_value _ adr hadr16
        (set_getD_self _ 0 _ (by simp [hbuf])) hadr1]
  have hadr10 : adr ≤ 10 := by
    simp only [SENSORMAX] at hcap
    omega
  have ev : v % 65536 = v := Nat.mod_eq_of_lt hv
  have hgv : (s.sensorValue.set adr v).getD adr 0 = v :=
    set_getD_self _ adr _ (by omega)
  simp only [ev, hgv]
  simp only [List.sum_cons, List.sum_nil, List.append_assoc, List.cons_append,
             List.nil_append]
  congr 1
  simp only [List.cons.injEq]
  and_intros <;> first | trivial | omega

theorem C6_value_roundtrip_witness :
    (processBytes (setSensorMeasurement sensorScenarioBase 1 0x1234)
        ((mkFrame [0xA0 + 1]).map (fun b => (10, b)))).output =
      sensorScenarioBase.output ++ [0x06, 0xA0 + 1, 0x1234 % 256, 0x1234 / 256] ++
        [(0xFFFF - ([0x06, 0xA0 + 1, 0x1234 % 256, 0x1234 / 256].sum)) % 256,
         (0xFFFF - ([0x06, 0xA0 + 1, 0x1234 % 256, 0x1234 / 256].sum)) / 256] :=
  C6_value_roundtrip sensorScenarioBase 1 0x1234 10 (Or.inr (by decide)) (by decide)
    (by decide) (by decide) (by decide) (by decide) (by decide) (by decide) (by decide)

/-- C7: with telemetry enabled and at least adr sensors registered, a valid
discover-poll frame for address adr makes the decoder write exactly the four
bytes 0x04, 0x80+adr, then the 16-bit checksum 0xFFFF - (0x04 + (0x80+adr))
low byte first, and increments the poll counter; in particular for address 2
the four bytes are 04 82 79 FF with 0xFF79 = 0xFFFF - (0x04 + 0x82). -/
theorem C7_discover_reply (s : IBusState) (adr t : Nat)
    (hstart : s.state = FsmState.GET_LENGTH ∨ PROTOCOL_TIMEGAP ≤ sub32 t s.last)
    (ht : t < 4294967296) (hadr1 : 1 ≤ adr) (hadr2 : adr ≤ s.sensorCount)
    (hcap : s.sensorCount ≤ SENSORMAX) (hen : s.enablesensor = true)
    (hbuf : s.buffer.length = 32) :
    ((processBytes s ((mkFrame [0x80 + adr]).map (fun b => (t, b)))).output =
      s.output ++ [0x04, 0x80 + adr] ++
        [(0xFFFF - (0x04 + (0x80 + adr))) % 256,
         (0xFFFF - (0x04 + (0x80 + adr))) / 256]) ∧
    ((processBytes s ((mkFrame [0x80 + adr]).map (fun b => (t, b)))).cnt_poll =
      s.cnt_poll + 1) ∧
    discoverScenario.output = [0x04, 0x82, 0x79, 0xFF] ∧
    (0xFF79 : Nat) = 0xFFFF - (0x04 + 0x82) := by
  have hadr16 : adr < 16 := by
    simp only [SENSORMAX] at hcap
    omega
  rw [pollFrame_run s t 0x80 adr hstart ht (by left; rfl) hadr1 hadr16 hadr2 hen hbuf]
  rw [sensorDispatch_discover _ adr hadr16
        (set_getD_self _ 0 _ (by simp [hbuf])) hadr1]
  refine ⟨?_, rfl, by decide, by decide⟩
  have ec : 0xFFFF - (0x04 + 0x80 + adr) = 0xFFFF - (0x04 + (0x80 + adr)) := by omega
  simp only [ec]
  simp

theorem C7_discover_reply_witness :
    ((processBytes sensorScenarioBase
        ((mkFrame [0x80 + 2]).map (fun b => (10, b)))).output =
      sensorScenarioBase.output ++ [0x04, 0x80 + 2] ++
        [(0xFFFF - (0x04 + (0x80 + 2))) % 256, (0xFFFF - (0x04 + (0x80 + 2))) / 256]) ∧
    ((processBytes sensorScenarioBase
        ((mkFrame [0x80 + 2]).map (fun b => (10, b)))).cnt_poll =
      sensorScenarioBase.cnt_poll + 1) :=
  let h := C7_discover_reply sensorScenarioBase 2 10 (Or.inr (by decide)) (by decide)
    (by decide) (by decide) (by decide) (by decide) (by decide)
  ⟨h.1, h.2.1⟩

/-- C8 counterexample: address 0 lies outside the 1-based registered range
1..sensorCount (here sensorCount = 0), yet setSensorMeasurement(0, 5) is not a
no-op: it overwrites sensor-value slot 0, because the code only checks
`adr <= sensorCount`. -/
theorem C8_counterexample :
    (initState false).sensorCount = 0 ∧
    (setSensorMeasurement (initState false) 0 5).sensorValue.getD 0 0 = 5 ∧
    setSensorMeasurement (initState false) 0 5 ≠ initState false :=
  ⟨rfl, by decide, by decide⟩

/-- C8 (amended): setSensorMeasurement(adr, v) is a no-op when adr exceeds
sensorCount; when adr le sensorCount — including the unregistered address 0 —
it overwrites exactly sensor-value slot adr, leaving every other slot, the
sensor types and the channels unchanged. -/
theorem C8_set_sensor_value (s : IBusState) (adr v : Nat) (hadr : adr < 256) :
    (s.sensorCount < adr → setSensorMeasurement s adr v = s) ∧
    (adr ≤ s.sensorCount →
      ((∀ j, j ≠ adr → (setSensorMeasurement s adr v).sensorValue.getD j 0 =
          s.sensorValue.getD j 0) ∧
       (adr < s.sensorValue.length →
         (setSensorMeasurement s adr v).sensorValue.getD adr 0 = v % 65536) ∧
       (setSensorMeasurement s adr v).sensorType = s.sensorType ∧
       (setSensorMeasurement s adr v).channel = s.channel)) := by
  have ham : adr % 256 = adr := Nat.mod_eq_of_lt hadr
  constructor
  · intro h
    simp only [setSensorMeasurement, ham]
    rw [if_neg (by omega)]
  · intro h
    simp only [setSensorMeasurement, ham]
    rw [if_pos h]
    exact ⟨fun j hj => set_getD_ne _ adr j _ (Ne.symm hj),
           fun hl => set_getD_self _ adr _ hl, rfl, rfl⟩

theorem C8_set_sensor_value_witness :
    setSensorMeasurement (initState false) 3 7 = initState false :=
  (C8_set_sensor_value (initState false) 3 7 (by decide)).1 (by decide)

/-- C9: registerSensor(type) appends a new sensor entry and returns its
address when the registered count is below SENSORMAX — the new address is
always count + 1, so addresses are assigned sequentially 1, 2, 3, ... — and
when the registry is full it changes nothing and returns the unchanged
count. -/
theorem C9_register_sensor (s : IBusState) (type : Nat)
    (hst : s.sensorType.length = SENSORMAX + 1) :
    (s.sensorCount < SENSORMAX →
      ((addSensor s type).2 = s.sensorCount + 1 ∧
       (addSensor s type).1.sensorCount = s.sensorCount + 1 ∧
       (addSensor s type).1.sensorType.getD (s.sensorCount + 1) 0 = type % 256 ∧
       (∀ j, j ≠ s.sensorCount + 1 →
         (addSensor s type).1.sensorType.getD j 0 = s.sensorType.getD j 0) ∧
       (addSensor s type).1.sensorValue = s.sensorValue ∧
       (addSensor s type).1.channel = s.channel)) ∧
    (SENSORMAX ≤ s.sensorCount → addSensor s type = (s, s.sensorCount)) := by
  constructor
  · intro h
    simp only [addSensor, if_pos h]
    refine ⟨by trivial, by trivial, ?_, ?_, by trivial, by trivial⟩
    · apply set_getD_self
      simp only [SENSORMAX] at h hst
      omega
    · intro j hj
      exact set_getD_ne _ _ _ _ (Ne.symm hj)
  · intro h
    simp only [addSensor]
    rw [if_neg (by omega)]

theorem C9_register_sensor_witness :
    (addSensor (initState false) 5).2 = 1 ∧
    (addSensor (initState false) 5).1.sensorCount = 1 :=
  let h := ((C9_register_sensor (initState false) 5 (by decide)).1 (by decide))
  ⟨h.1, h.2.1⟩

/-! ### C10: buffer-write bound invariant -/

theorem step_mod (s : IBusState) (now v : Nat) : step s now v = step s now (v % 256) := by
  simp only [step, Nat.mod_mod]

theorem step_GET_LENGTH_err_start (s : IBusState) (now v : Nat)
    (hstart : s.state = FsmState.GET_LENGTH ∨ PROTOCOL_TIMEGAP ≤ sub32 now s.last)
    (hbad : ¬ (v % 256 ≤ PROTOCOL_LENGTH ∧ PROTOCOL_OVERHEAD < v % 256)) :
    step s now v = { s with last := now % 4294967296,
                            cnt_err := s.cnt_err + 1, state := FsmState.DISCARD } := by
  by_cases hgap : PROTOCOL_TIMEGAP ≤ sub32 now s.last
  · simp only [step, if_pos hgap]
    rw [if_neg hbad]
  · rcases hstart with hst | h
    · exact step_GET_LENGTH_err s now v (by omega) hst hbad
    · exact absurd h hgap

theorem step_GET_CHKSUMH_state_buffer (s : IBusState) (now v : Nat)
    (hgap : sub32 now s.last < PROTOCOL_TIMEGAP) (hst : s.state = FsmState.GET_CHKSUMH) :
    (step s now v).state = FsmState.DISCARD ∧ (step s now v).buffer = s.buffer := by
  simp only [step, if_neg (by omega : ¬ PROTOCOL_TIMEGAP ≤ sub32 now s.last), hst]
  constructor
  · trivial
  · simp only [sensorDispatch]
    repeat' split
    all_goals rfl

theorem step_inv (s : IBusState) (now v : Nat)
    (h1 : s.state = FsmState.GET_DATA → s.ptr < s.len ∧ s.len ≤ 29)
    (h2 : s.buffer.length = 32) :
    ((step s now v).state = FsmState.GET_DATA →
      (step s now v).ptr < (step s now v).len ∧ (step s now v).len ≤ 29) ∧
    (step s now v).buffer.length = 32 := by
  rw [step_mod s now v]
  have hw : v % 256 < 256 := Nat.mod_lt _ (by norm_num)
  have hww : v % 256 % 256 = v % 256 := Nat.mod_mod v 256
  by_cases hgap : PROTOCOL_TIMEGAP ≤ sub32 now s.last
  · by_cases hv : PROTOCOL_OVERHEAD < v % 256 ∧ v % 256 ≤ PROTOCOL_LENGTH
    · rw [step_GET_LENGTH_start s now (v % 256) (Or.inr hgap) hv.1 hv.2]
      refine ⟨fun _ => ?_, h2⟩
      simp only [PROTOCOL_LENGTH, PROTOCOL_OVERHEAD] at hv ⊢
      omega
    · rw [step_GET_LENGTH_err_start s now (v % 256) (Or.inr hgap)
            (by rw [hww]; simp only [PROTOCOL_LENGTH, PROTOCOL_OVERHEAD] at hv ⊢; omega)]
      exact ⟨fun h => by simp at h, h2⟩
  · cases hst : s.state with
    | GET_LENGTH =>
        by_cases hv : PROTOCOL_OVERHEAD < v % 256 ∧ v % 256 ≤ PROTOCOL_LENGTH
        · rw [step_GET_LENGTH_start s now (v % 256) (Or.inl hst) hv.1 hv.2]
          refine ⟨fun _ => ?_, h2⟩
          simp only [PROTOCOL_LENGTH, PROTOCOL_OVERHEAD] at hv ⊢
          omega
        · rw [step_GET_LENGTH_err_start s now (v % 256) (Or.inl hst)
                (by rw [hww]; simp only [PROTOCOL_LENGTH, PROTOCOL_OVERHEAD] at hv ⊢; omega)]
          exact ⟨fun h => by simp at h, h2⟩
    | GET_DATA =>
        have hb := h1 hst
        by_cases hl : s.ptr + 1 = s.len
        · rw [step_GET_DATA_last s now (v % 256) (by omega) hst hl]
          exact ⟨fun h => by simp at h, by simp [List.length_set, h2]⟩
        · rw [step_GET_DATA_mid s now (v % 256) (by omega) hst hl]
          refine ⟨fun _ => ?_, by simp [List.length_set, h2]⟩
          dsimp only
          omega
    | GET_CHKSUML =>
        rw [step_GET_CHKSUML s now (v % 256) (by omega) hst]
        exact ⟨fun h => by simp at h, h2⟩
    | GET_CHKSUMH =>
        have h := step_GET_CHKSUMH_state_buffer s now (v % 256) (by omega) hst
        refine ⟨fun hD => ?_, ?_⟩
        · rw [h.1] at hD
          simp at hD
        · rw [h.2]
          exact h2
    | DISCARD =>
        rw [step_DISCARD s now (v % 256) (by omega) hst]
        exact ⟨fun h => by rw [show ({ s with last := now % 4294967296 } : IBusState).state =
                 s.state from rfl, hst] at h; simp at h, h2⟩

theorem processBytes_inv (l : List (Nat × Nat)) : ∀ (s : IBusState),
    (s.state = FsmState.GET_DATA → s.ptr < s.len ∧ s.len ≤ 29) →
    s.buffer.length = 32 →
    ((processBytes s l).state = FsmState.GET_DATA →
      (processBytes s l).ptr < (processBytes s l).len ∧ (processBytes s l).len ≤ 29) ∧
    (processBytes s l).buffer.length = 32 := by
  induction l with
  | nil => intro s h1 h2; exact ⟨h1, h2⟩
  | cons p rest ih =>
      intro s h1 h2
      have h := step_inv s p.1 p.2 h1 h2
      exact ih (step s p.1 p.2) h.1 h.2

/-- C10 (implicit safety): starting from a fresh instance, whenever the parser
is in the GET_DATA state the write index ptr is strictly below the expected
payload length len, and len is at most PROTOCOL_LENGTH - PROTOCOL_OVERHEAD
(= 29); hence every buffer write `buffer[ptr++]` lands at an index in
0..len-1, inside the 32-byte buffer. -/
theorem C10_buffer_write_in_bounds (e : Bool) (l : List (Nat × Nat)) :
    ((processBytes (initState e) l).state = FsmState.GET_DATA →
      (processBytes (initState e) l).ptr < (processBytes (initState e) l).len ∧
      (processBytes (initState e) l).len ≤ PROTOCOL_LENGTH - PROTOCOL_OVERHEAD) ∧
    (processBytes (initState e) l).buffer.length = 32 := by
  have h := processBytes_inv l (initState e)
    (by intro hD; simp [initState] at hD) rfl
  simpa [PROTOCOL_LENGTH, PROTOCOL_OVERHEAD] using h

theorem C10_buffer_write_in_bounds_witness :
    (processBytes (initState false) [(10, 0x20)]).state = FsmState.GET_DATA ∧
    (processBytes (initState false) [(10, 0x20)]).ptr <
      (processBytes (initState false) [(10, 0x20)]).len ∧
    (processBytes (initState false) [(10, 0x20)]).len ≤
      PROTOCOL_LENGTH - PROTOCOL_OVERHEAD ∧
    (processBytes (initState false) [(10, 0x20)]).buffer.length = 32 :=
  let h := C10_buffer_write_in_bounds false [(10, 0x20)]
  ⟨by decide, (h.1 (by decide)).1, (h.1 (by decide)).2, h.2⟩

end IBusBM
